import Mathlib

/-
Verification of the color-evolution detection and rescaling pipeline of the
adsgrb repository (grblc/evolution/lightcurve.py, grblc/evolution/rescale.py).

Magnitudes, magnitude errors and times are modelled as rationals; Python
floats that can hold NaN are modelled by the type PFloat below.  The
combined error sqrt(err_ref^2 + err_obs^2) of a rescaling-factor sample is
kept in squared form (field errsq), since square roots are irrational; no
claim depends on the un-squared value.
-/

/- ### Python float model

numpy NaN semantics needed for lightcurve.py line 599: in Python every
ordering comparison with NaN is False, while x != nan is True for every x
(including x = nan itself). -/

inductive PFloat where
  | nan : PFloat
  | val (q : ℚ) : PFloat
deriving Repr, DecidableEq

def pfne : PFloat → PFloat → Bool
  | PFloat.val a, PFloat.val b => a != b
  | _, _ => true

def pflt : PFloat → PFloat → Bool
  | PFloat.val a, PFloat.val b => a < b
  | _, _ => false

def pfle : PFloat → PFloat → Bool
  | PFloat.val a, PFloat.val b => a ≤ b
  | _, _ => false

def pfabs : PFloat → PFloat
  | PFloat.nan => PFloat.nan
  | PFloat.val q => PFloat.val (if q < 0 then -q else q)

def pfadd : PFloat → PFloat → PFloat
  | PFloat.val a, PFloat.val b => PFloat.val (a + b)
  | _, _ => PFloat.nan

def pfsub : PFloat → PFloat → PFloat
  | PFloat.val a, PFloat.val b => PFloat.val (a - b)
  | _, _ => PFloat.nan

def pfmul : PFloat → PFloat → PFloat
  | PFloat.val a, PFloat.val b => PFloat.val (a * b)
  | _, _ => PFloat.nan

/- ### Per-band slope classification

Embeds grblc/evolution/lightcurve.py, rescaleGRB, lines 570-615.

For a band with nsamples rescaling-factor samples:
  lines 570-586: if nsamples >= 3 an lmfit straight line is fitted; its
    slope and slope standard error (fitslope, fitslope_err below) are
    stored in the slope table;
  lines 588-597: otherwise slope and slope_err are set to np.nan and the
    comment column is set to "insufficient data";
  lines 599-615: the comment column is then reassigned on every path:
    line 599 tests slope != np.nan, which in Python is True even when
    slope is NaN, so the classification branch is always entered;
    line 607 tests np.abs(slope) < 0.1,
    line 609 tests slope - 3*slope_err <= 0 <= slope + 3*slope_err,
    line 612 otherwise writes "slope >= 0.1" (the color-evolution label);
    the else branch writing "slope=nan" (line 615) is unreachable.

The calls wmom(y) at lines 579-580 and 589-590 omit the second required
argument of wmom (lines 372-433) and raise TypeError in Python; they are
modelled separately by wmomCall below.  bandComment models the data flow
of the slope / slope_err / comment assignments themselves. -/

def bandComment (nsamples : ℕ) (fitslope fitslope_err : ℚ) : String :=
  let slope : PFloat := if 3 ≤ nsamples then PFloat.val fitslope else PFloat.nan
  let slope_err : PFloat := if 3 ≤ nsamples then PFloat.val fitslope_err else PFloat.nan
  -- line 596 sets the comment to "insufficient data" when nsamples < 3; every
  -- reachable path of lines 599-615 then overwrites it, so it never survives:
  let _comment0 : String := if 3 ≤ nsamples then "" else "insufficient data"
  if pfne slope PFloat.nan then
    if pflt (pfabs slope) (PFloat.val (1/10)) then "no color evolution"
    else if pfle (pfsub slope (pfmul (PFloat.val 3) slope_err)) (PFloat.val 0) then
      -- Python chained comparison slope - 3*slope_err <= 0 <= slope + 3*slope_err
      if pfle (PFloat.val 0) (pfadd slope (pfmul (PFloat.val 3) slope_err)) then
        "no color evolution"
      else "slope >= 0.1"
    else "slope >= 0.1"
  else "slope=nan"

/-- C1: for a non-reference band for which a slope fit exists (at least 3
samples, so lines 570-586 produced real slope and slope_err values), the
classification of lines 599-615 applies, in order: first, |slope| < 0.1
gives the no-color-evolution label; otherwise, if the closed 3-sigma
interval [slope - 3*slope_err, slope + 3*slope_err] contains 0, the band
gets the no-color-evolution label; otherwise it gets the color-evolution
label (the string "slope >= 0.1"). -/
theorem C1_classification_rules (n : ℕ) (hn : 3 ≤ n) (s e : ℚ) :
    (|s| < 1/10 → bandComment n s e = "no color evolution") ∧
    (¬ |s| < 1/10 → (s - 3 * e ≤ 0 ∧ 0 ≤ s + 3 * e) →
      bandComment n s e = "no color evolution") ∧
    (¬ |s| < 1/10 → ¬ (s - 3 * e ≤ 0 ∧ 0 ≤ s + 3 * e) →
      bandComment n s e = "slope >= 0.1") := by
  have habs : (if s < 0 then -s else s) = |s| := by
    by_cases h : s < 0
    · rw [if_pos h, abs_of_neg h]
    · rw [if_neg h, abs_of_nonneg (le_of_not_lt h)]
  refine ⟨fun h1 => ?_, fun h1 h2 => ?_, fun h1 h2 => ?_⟩
  · have h1a : |s| < 10⁻¹ := by rwa [one_div] at h1
    simp [bandComment, if_pos hn, pfne, pflt, pfabs, pfle, pfsub, pfmul, pfadd, habs, h1a]
  · have h1a : ¬ |s| < 10⁻¹ := by rwa [one_div] at h1
    have h2a : s ≤ 3 * e := by linarith [h2.1]
    simp [bandComment, if_pos hn, pfne, pflt, pfabs, pfle, pfsub, pfmul, pfadd, habs, h1a,
      h2a, h2.2]
  · have h1a : ¬ |s| < 10⁻¹ := by rwa [one_div] at h1
    rw [Classical.not_and_iff_or_not_not] at h2
    rcases h2 with h2 | h2
    · have h2a : ¬ s ≤ 3 * e := fun hc => h2 (by linarith)
      simp [bandComment, if_pos hn, pfne, pflt, pfabs, pfle, pfsub, pfmul, pfadd, habs, h1a, h2a]
    · simp [bandComment, if_pos hn, pfne, pflt, pfabs, pfle, pfsub, pfmul, pfadd, habs, h1a, h2]

/-- Witness for C1 at a concrete input: a band with 3 samples and fitted
slope 1/20 (|slope| < 0.1) is classified as having no color evolution. -/
theorem C1_witness : bandComment 3 (1/20) 1 = "no color evolution" :=
  (C1_classification_rules 3 (by norm_num) (1/20) 1).1
    (by rw [abs_lt]; constructor <;> norm_num)

/- ### Weighted mean (wmom)

Embeds grblc/evolution/lightcurve.py, wmom, lines 372-433, in the default
configuration used by rescaleGRB (inputmean=None, calcerr=False,
sdev=False): weights = 1/yerr**2, wtot = weights.sum(),
wmean = (weights*y).sum()/wtot, werr = 1/sqrt(wtot).  Since the square
root is irrational, werr is represented by its square. -/

def wmom_wtot (yerr : List ℚ) : ℚ := (yerr.map (fun e => 1 / e ^ 2)).sum

def wmom_wmean (y yerr : List ℚ) : ℚ :=
  ((y.zip yerr).map (fun p => (1 / p.2 ^ 2) * p.1)).sum / wmom_wtot yerr

def wmom_werrSq (yerr : List ℚ) : ℚ := 1 / wmom_wtot yerr

/-- The Python call of wmom.  wmom has two required positional parameters y
and yerr (line 372); the call sites at lines 579-580 and 589-590 are
wmom(y), passing a single positional argument, which raises TypeError in
Python before the function body runs.  The dynamic arity check is modelled
by passing the list of positional arguments. -/
def wmomCall (args : List (List ℚ)) : Except String (ℚ × ℚ) :=
  match args with
  | [y, yerr] => Except.ok (wmom_wmean y yerr, wmom_werrSq yerr)
  | _ => Except.error "TypeError: wmom() missing 1 required positional argument: yerr"

/-- C3 (code bug): for a non-reference band with exactly 1 or 2 samples,
lines 588-597 skip the line fit, set slope and slope_err to np.nan and set
the comment to "insufficient data"; but line 599 (slope != np.nan) is True
even for NaN, so lines 599-612 overwrite the comment with "slope >= 0.1"
(the color-evolution label), not "insufficient data" as the claim states.
Moreover the weighted-mean call at lines 589-590 is wmom(y), omitting the
required second argument yerr, so it raises TypeError instead of computing
the weighted mean with error 1/sqrt(sum of 1/err^2). -/
theorem C3_insufficient_data_band_bug :
    (∀ fitslope fitslope_err : ℚ, bandComment 1 fitslope fitslope_err = "slope >= 0.1") ∧
    (∀ fitslope fitslope_err : ℚ, bandComment 2 fitslope fitslope_err = "slope >= 0.1") ∧
    "slope >= 0.1" ≠ "insufficient data" ∧
    wmomCall [[1, 2]] =
      Except.error "TypeError: wmom() missing 1 required positional argument: yerr" :=
  ⟨fun _ _ => rfl, fun _ _ => rfl, by decide, rfl⟩

/- ### Pairwise matcher

Embeds grblc/evolution/lightcurve.py, rescaleGRB, lines 474-505: for a
non-reference band with time/magnitude/error arrays sub_x, sub_y, sub_yerr
and the reference band arrays rescale_x, rescale_y, rescale_yerr. -/

/-- np.abs on a rational. -/
def qabs (x : ℚ) : ℚ := if x < 0 then -x else x

/-- Lines 481-482: the admitted index pairs [p1, p2], p1 ranging over the
reference-band array and p2 over the band array, kept when
np.abs(rescale_x[p1] - sub_x[p2]) <= rescale_x[p1] * 0.025. -/
def timediff (rescale_x sub_x : List ℚ) : List (ℕ × ℕ) :=
  (List.range rescale_x.length).flatMap (fun p1 =>
    (List.range sub_x.length).filterMap (fun p2 =>
      if qabs (rescale_x.getD p1 0 - sub_x.getD p2 0) ≤ rescale_x.getD p1 0 * (1/40)
      then some (p1, p2) else none))

/-- One scaling-factor entry sf2 (lines 486-489):
[sub_x[p2], rescale_y[p1] - sub_y[p2], np.abs(rescale_x[p1] - sub_x[p2]),
 np.sqrt(rescale_yerr[p1]^2 + sub_yerr[p2]^2)].  The last component is kept
in squared form (errsq), since the square root is irrational; no claim
depends on the un-squared value. -/
structure SF where
  time : ℚ
  offset : ℚ
  absdiff : ℚ
  errsq : ℚ
deriving Repr, DecidableEq

def mkSF (rx ry rerr sx sy serr : List ℚ) (p : ℕ × ℕ) : SF :=
  { time := sx.getD p.2 0
    offset := ry.getD p.1 0 - sy.getD p.2 0
    absdiff := qabs (rx.getD p.1 0 - sx.getD p.2 0)
    errsq := (rerr.getD p.1 0) ^ 2 + (serr.getD p.2 0) ^ 2 }

/-- Lines 484-490: the scaling-factor samples appended for one
non-reference band. -/
def bandSamples (rx ry rerr sx sy serr : List ℚ) : List SF :=
  (timediff rx sx).map (mkSF rx ry rerr sx sy serr)

/-- Python min of a list of rationals (0 for the empty list, which cannot
occur at its call site below). -/
def pymin : List ℚ → ℚ
  | [] => 0
  | [a] => a
  | a :: b :: rest => min a (pymin (b :: rest))

/-- Python list.index: index of the first occurrence of x. -/
def pyindex (x : ℚ) : List ℚ → ℕ
  | [] => 0
  | a :: rest => if a = x then 0 else pyindex x rest + 1

/-- Python set(...) over the observation times, modelled as
first-occurrence deduplication (iteration order of a Python set is
arbitrary; the retained list is re-sorted by time at line 505 downstream,
so the order does not affect any claim). -/
def pysetGo (seen : List ℚ) : List ℚ → List ℚ
  | [] => []
  | a :: rest => if a ∈ seen then pysetGo seen rest else a :: pysetGo (a :: seen) rest

def pyset (l : List ℚ) : List ℚ := pysetGo [] l

/-- Lines 492-502: for each distinct observation time tt of the scaling
list fl2 of one band, build suppllist (the entries at time tt) and
suppllistdist (their stored absolute time differences, component 2 of
sf2), then keep suppllist[mindistpos] where
mindistpos = suppllistdist.index(min(suppllistdist)) is the first position
attaining the minimal absolute time difference. -/
def retainAt (fl2 : List SF) (tt : ℚ) : Option SF :=
  (fl2.filter (fun el => el.time == tt)).get?
    (pyindex (pymin ((fl2.filter (fun el => el.time == tt)).map SF.absdiff))
      ((fl2.filter (fun el => el.time == tt)).map SF.absdiff))

def retainSamples (fl2 : List SF) : List SF :=
  (pyset (fl2.map SF.time)).filterMap (retainAt fl2)

/- ### Supporting lemmas on pymin, pyindex and pyset -/

theorem pymin_le (l : List ℚ) : ∀ x ∈ l, pymin l ≤ x := by
  induction l with
  | nil => intro x hx; cases hx
  | cons a t ih =>
    cases t with
    | nil =>
      intro x hx
      rcases List.mem_singleton.mp hx with rfl
      exact le_rfl
    | cons b r =>
      intro x hx
      rcases List.mem_cons.mp hx with rfl | hx2
      · exact min_le_left _ _
      · exact le_trans (min_le_right _ _) (ih x hx2)

theorem pymin_mem (l : List ℚ) (hl : l ≠ []) : pymin l ∈ l := by
  induction l with
  | nil => exact absurd rfl hl
  | cons a t ih =>
    cases t with
    | nil => simp [pymin]
    | cons b r =>
      rcases min_choice a (pymin (b :: r)) with h | h
      · rw [pymin, h]
        exact List.mem_cons_self _ _
      · rw [pymin, h]
        exact List.mem_cons_of_mem _ (ih (by simp))

theorem get?_pyindex_find? (l : List SF) (m : ℚ) (hm : m ∈ l.map SF.absdiff) :
    l.get? (pyindex m (l.map SF.absdiff)) = l.find? (fun e => e.absdiff == m) := by
  induction l with
  | nil => cases hm
  | cons a t ih =>
    rw [List.map_cons]
    by_cases h : a.absdiff = m
    · rw [pyindex, if_pos h, List.find?_cons_of_pos _ (by simp [h])]
      rfl
    · have hm2 : m ∈ t.map SF.absdiff := by
        rcases List.mem_cons.mp (List.map_cons SF.absdiff a t ▸ hm) with h2 | h2
        · exact absurd h2.symm h
        · exact h2
      rw [pyindex, if_neg h, List.find?_cons_of_neg _ (by simp [h])]
      exact ih hm2

theorem mem_pysetGo (l : List ℚ) : ∀ (seen : List ℚ) (x : ℚ),
    x ∈ pysetGo seen l ↔ x ∈ l ∧ x ∉ seen := by
  induction l with
  | nil => intro seen x; simp [pysetGo]
  | cons a rest ih =>
    intro seen x
    by_cases h : a ∈ seen
    · rw [pysetGo, if_pos h, ih]
      constructor
      · rintro ⟨hx, hs⟩
        exact ⟨List.mem_cons_of_mem _ hx, hs⟩
      · rintro ⟨hx, hs⟩
        rcases List.mem_cons.mp hx with rfl | hx2
        · exact absurd h hs
        · exact ⟨hx2, hs⟩
    · rw [pysetGo, if_neg h]
      constructor
      · intro hx
        rcases List.mem_cons.mp hx with rfl | hx2
        · exact ⟨List.mem_cons_self _ _, h⟩
        · rw [ih] at hx2
          exact ⟨List.mem_cons_of_mem _ hx2.1,
            fun hs => hx2.2 (List.mem_cons_of_mem _ hs)⟩
      · rintro ⟨hx, hs⟩
        rcases List.mem_cons.mp hx with rfl | hx2
        · exact List.mem_cons_self _ _
        · by_cases hxa : x = a
          · subst hxa
            exact List.mem_cons_self _ _
          · refine List.mem_cons_of_mem _ ((ih _ _).mpr ⟨hx2, ?_⟩)
            intro hc
            rcases List.mem_cons.mp hc with hc2 | hc2
            · exact hxa hc2
            · exact hs hc2

theorem nodup_pysetGo (l : List ℚ) : ∀ seen : List ℚ, (pysetGo seen l).Nodup := by
  induction l with
  | nil => intro seen; simp [pysetGo]
  | cons a rest ih =>
    intro seen
    by_cases h : a ∈ seen
    · rw [pysetGo, if_pos h]
      exact ih seen
    · rw [pysetGo, if_neg h]
      refine List.nodup_cons.mpr ⟨?_, ih (a :: seen)⟩
      intro hmem
      exact ((mem_pysetGo _ _ _).mp hmem).2 (List.mem_cons_self _ _)

theorem nodup_pyset (l : List ℚ) : (pyset l).Nodup := nodup_pysetGo l []

theorem mem_pyset (l : List ℚ) (x : ℚ) : x ∈ pyset l ↔ x ∈ l := by
  rw [pyset, mem_pysetGo]
  simp

theorem mem_timediff (rx sx : List ℚ) (p1 p2 : ℕ) :
    (p1, p2) ∈ timediff rx sx ↔
      p1 < rx.length ∧ p2 < sx.length ∧
      qabs (rx.getD p1 0 - sx.getD p2 0) ≤ rx.getD p1 0 * (1/40) := by
  constructor
  · intro h
    rw [timediff, List.mem_flatMap] at h
    obtain ⟨q1, hq1, h2⟩ := h
    rw [List.mem_filterMap] at h2
    obtain ⟨q2, hq2, h3⟩ := h2
    by_cases hc : qabs (rx.getD q1 0 - sx.getD q2 0) ≤ rx.getD q1 0 * (1/40)
    · rw [if_pos hc] at h3
      simp only [Option.some.injEq, Prod.mk.injEq] at h3
      obtain ⟨rfl, rfl⟩ := h3
      exact ⟨List.mem_range.mp hq1, List.mem_range.mp hq2, hc⟩
    · rw [if_neg hc] at h3
      cases h3
  · rintro ⟨h1, h2, h3⟩
    rw [timediff, List.mem_flatMap]
    refine ⟨p1, List.mem_range.mpr h1, ?_⟩
    rw [List.mem_filterMap]
    exact ⟨p2, List.mem_range.mpr h2, by rw [if_pos h3]⟩

theorem retainAt_some_props (fl2 : List SF) (tt : ℚ) (s : SF)
    (hF : retainAt fl2 tt = some s) :
    s ∈ fl2.filter (fun el => el.time == tt) ∧ s.time = tt ∧
    s.absdiff = pymin ((fl2.filter (fun el => el.time == tt)).map SF.absdiff) ∧
    (fl2.filter (fun el => el.time == tt)).find?
        (fun e => e.absdiff == pymin ((fl2.filter (fun el => el.time == tt)).map SF.absdiff))
      = some s := by
  have hgrp : fl2.filter (fun el => el.time == tt) ≠ [] := by
    intro hnil
    rw [retainAt, hnil] at hF
    cases hF
  have hdists : (fl2.filter (fun el => el.time == tt)).map SF.absdiff ≠ [] := by
    intro hnil
    exact hgrp (List.map_eq_nil_iff.mp hnil)
  have hmin := pymin_mem _ hdists
  have hfind : retainAt fl2 tt
      = (fl2.filter (fun el => el.time == tt)).find?
          (fun e => e.absdiff
            == pymin ((fl2.filter (fun el => el.time == tt)).map SF.absdiff)) :=
    get?_pyindex_find? _ _ hmin
  rw [hfind] at hF
  have hmem := List.mem_of_find?_eq_some hF
  have hpred := List.find?_some hF
  refine ⟨hmem, ?_, by simpa using hpred, hF⟩
  simpa using List.of_mem_filter hmem

theorem filterMap_retain_filter_time (F : ℚ → Option SF)
    (hFt : ∀ t s0, F t = some s0 → s0.time = t) :
    ∀ (l : List ℚ), l.Nodup → ∀ (t : ℚ), t ∈ l → ∀ (s : SF), F t = some s →
    (l.filterMap F).filter (fun e => e.time == t) = [s] := by
  intro l
  induction l with
  | nil => intro _ t ht; cases ht
  | cons a rest ih =>
    intro hl t ht s hs
    rw [List.nodup_cons] at hl
    rcases List.mem_cons.mp ht with rfl | ht2
    · rw [List.filterMap_cons, hs, List.filter_cons]
      have h1 : s.time = t := hFt t s hs
      have h2 : (rest.filterMap F).filter (fun e => e.time == t) = [] := by
        rw [List.filter_eq_nil_iff]
        intro b hb
        rw [List.mem_filterMap] at hb
        obtain ⟨t2, ht2m, hFt2⟩ := hb
        have hbt : b.time = t2 := hFt t2 b hFt2
        simp only [hbt, beq_iff_eq, decide_eq_true_eq]
        intro hc
        exact hl.1 (hc ▸ ht2m)
      simp [h1, h2]
    · have hne : a ≠ t := fun hc => hl.1 (hc ▸ ht2)
      rw [List.filterMap_cons]
      cases hFa : F a with
      | none => exact ih hl.2 t ht2 s hs
      | some sa =>
        have hsat : sa.time = a := hFt a sa hFa
        rw [List.filter_cons]
        simp only [hsat, beq_iff_eq, decide_eq_true_eq]
        rw [if_neg hne]
        exact ih hl.2 t ht2 s hs

/-- C4: every scaling-factor sample produced by the pairwise matcher
(lines 474-505) arises from an index pair admitted by the filter of lines
481-482, and, provided the reference times are positive (the time_sec > 0
input contract), the time fraction difference |t_ref - t_obs| / t_ref of
that pair is at most 0.025 = 1/40. -/
theorem C4_time_fraction_threshold (rx ry rerr sx sy serr : List ℚ)
    (hpos : ∀ t ∈ rx, 0 < t) (s : SF)
    (hs : s ∈ retainSamples (bandSamples rx ry rerr sx sy serr)) :
    ∃ p1 p2, (p1, p2) ∈ timediff rx sx ∧
      s = mkSF rx ry rerr sx sy serr (p1, p2) ∧
      qabs (rx.getD p1 0 - sx.getD p2 0) / rx.getD p1 0 ≤ 1/40 := by
  rw [retainSamples, List.mem_filterMap] at hs
  obtain ⟨tt, _, hF⟩ := hs
  have hmem0 := (retainAt_some_props _ _ _ hF).1
  have hmem : s ∈ bandSamples rx ry rerr sx sy serr := List.mem_of_mem_filter hmem0
  rw [bandSamples, List.mem_map] at hmem
  obtain ⟨p, hp, rfl⟩ := hmem
  obtain ⟨p1, p2⟩ := p
  obtain ⟨h1, _, h3⟩ := (mem_timediff rx sx p1 p2).mp hp
  refine ⟨p1, p2, hp, rfl, ?_⟩
  have hmemrx : rx.getD p1 0 ∈ rx := by
    rw [List.getD_eq_getElem _ _ h1]
    exact List.getElem_mem h1
  have hpt : 0 < rx.getD p1 0 := hpos _ hmemrx
  rw [div_le_iff₀ hpt]
  calc qabs (rx.getD p1 0 - sx.getD p2 0) ≤ rx.getD p1 0 * (1/40) := h3
    _ = 1/40 * rx.getD p1 0 := mul_comm _ _

/-- Witness for C4 at a concrete input: reference times [100], band times
[99]; the single admitted pair has time fraction difference 1/100. -/
theorem C4_witness :
    ∃ p1 p2, (p1, p2) ∈ timediff [100] [99] ∧
      (⟨99, 1, 1, 2⟩ : SF) = mkSF [100] [5] [1] [99] [4] [1] (p1, p2) ∧
      qabs (([(100:ℚ)].getD p1 0) - ([(99:ℚ)].getD p2 0)) / ([(100:ℚ)].getD p1 0) ≤ 1/40 :=
  C4_time_fraction_threshold [100] [5] [1] [99] [4] [1] (by norm_num) ⟨99, 1, 1, 2⟩
    (by
      have hb : bandSamples [100] [5] [1] [99] [4] [1] = [⟨99, 1, 1, 2⟩] := by
        have ht : timediff [100] [99] = [(0, 0)] := by
          norm_num [timediff, qabs, show List.range 1 = [0] from rfl,
            List.filterMap_cons, List.flatMap_cons]
        rw [bandSamples, ht]
        norm_num [mkSF, qabs]
      rw [hb]
      norm_num [retainSamples, retainAt, pyset, pysetGo, pymin, pyindex,
        List.filterMap_cons, List.filter_cons])

/-- C5 counterexample: with reference times [98, 2041/20] and one band
observation at time 100 (all magnitudes 0, all errors 1), both reference
points are admitted by lines 481-482, yet lines 494-502 retain the sample
stored for reference time 98 (absolute difference 2), whose time fraction
difference 2/98 is strictly larger than the fraction (41/20)/(2041/20) of
the other admitted pair: the retained pair does not minimize the time
fraction difference. -/
theorem C5_counterexample :
    timediff [98, 2041/20] [100] = [(0, 0), (1, 0)] ∧
    retainSamples (bandSamples [98, 2041/20] [0, 0] [1, 1] [100] [0] [1])
      = [{ time := 100, offset := 0, absdiff := 2, errsq := 2 }] ∧
    qabs ((98 : ℚ) - 100) / 98 > qabs ((2041/20 : ℚ) - 100) / (2041/20) := by
  have ht : timediff [98, 2041/20] [100] = [(0, 0), (1, 0)] := by
    norm_num [timediff, qabs, show List.range 2 = [0, 1] from rfl,
      show List.range 1 = [0] from rfl, List.filterMap_cons, List.flatMap_cons]
  have hb : bandSamples [98, 2041/20] [0, 0] [1, 1] [100] [0] [1]
      = [⟨100, 0, 2, 2⟩, ⟨100, 0, 41/20, 2⟩] := by
    rw [bandSamples, ht]
    norm_num [mkSF, qabs]
  refine ⟨ht, ?_, by norm_num [qabs]⟩
  rw [hb]
  norm_num [retainSamples, retainAt, pyset, pysetGo, pymin, pyindex, List.filterMap_cons,
    List.filter_cons, min_def]

/-- C5 (amended): every sample retained by lines 492-502 belongs to the
band scaling list, minimizes the stored absolute time difference
|t_ref - t_obs| among the entries sharing its observation time (the first
entry attaining the minimum is selected, mirroring
suppllistdist.index(min(suppllistdist))), and is the unique retained
sample for that observation time, so at most one sample remains per
(band, observation time). -/
theorem C5_kept_pair_minimizes_absolute_diff (fl2 : List SF) (s : SF)
    (hs : s ∈ retainSamples fl2) :
    s ∈ fl2 ∧
    (∀ s2 ∈ fl2, s2.time = s.time → s.absdiff ≤ s2.absdiff) ∧
    (fl2.filter (fun el => el.time == s.time)).find?
        (fun e => e.absdiff == pymin ((fl2.filter (fun el => el.time == s.time)).map SF.absdiff))
      = some s ∧
    (retainSamples fl2).filter (fun e => e.time == s.time) = [s] := by
  have hsmem := hs
  rw [retainSamples, List.mem_filterMap] at hsmem
  obtain ⟨tt, httmem, hF⟩ := hsmem
  obtain ⟨hgrp, hstime, habsd, hfind⟩ := retainAt_some_props fl2 tt s hF
  subst hstime
  refine ⟨List.mem_of_mem_filter hgrp, ?_, hfind, ?_⟩
  · intro s2 hs2 hs2t
    have hs2grp : s2 ∈ fl2.filter (fun el => el.time == s.time) :=
      List.mem_filter.mpr ⟨hs2, by simp [hs2t]⟩
    have : s2.absdiff ∈ (fl2.filter (fun el => el.time == s.time)).map SF.absdiff :=
      List.mem_map_of_mem SF.absdiff hs2grp
    rw [habsd]
    exact pymin_le _ _ this
  · exact filterMap_retain_filter_time (retainAt fl2)
      (fun t s0 h => ((retainAt_some_props fl2 t s0 h).2).1)
      (pyset (fl2.map SF.time)) (nodup_pyset _) s.time httmem s hF

/-- Witness for C5 (amended) at a concrete input: two samples share
observation time 100 with absolute time differences 2 and 1; the retained
sample is the one with absolute difference 1, it is returned by find? at
the minimal distance, and it is the unique retained sample at time 100. -/
theorem C5_amended_witness :
    (⟨100, 5, 1, 4⟩ : SF) ∈ [(⟨100, 1, 2, 3⟩ : SF), ⟨100, 5, 1, 4⟩] ∧
    (∀ s2 ∈ [(⟨100, 1, 2, 3⟩ : SF), ⟨100, 5, 1, 4⟩], s2.time = (100 : ℚ) →
      (1 : ℚ) ≤ s2.absdiff) ∧
    (retainSamples [⟨100, 1, 2, 3⟩, ⟨100, 5, 1, 4⟩]).filter (fun e => e.time == (100 : ℚ))
      = [⟨100, 5, 1, 4⟩] := by
  have hs : (⟨100, 5, 1, 4⟩ : SF) ∈ retainSamples [⟨100, 1, 2, 3⟩, ⟨100, 5, 1, 4⟩] := by
    norm_num [retainSamples, retainAt, pyset, pysetGo, pymin, pyindex, List.filterMap_cons,
      List.filter_cons, min_def]
  have h := C5_kept_pair_minimizes_absolute_diff [⟨100, 1, 2, 3⟩, ⟨100, 5, 1, 4⟩]
    ⟨100, 5, 1, 4⟩ hs
  exact ⟨h.1, fun s2 h2 h3 => h.2.1 s2 h2 h3, h.2.2.2⟩

/- ### Rescaling (grblc/evolution/rescale.py, _rescaleGRB)

The light dataframe consumed by _rescaleGRB is the output of colorevolGRB
(module grblc/evolution/colorevol.py, which is not under src/; only its
caller grblc/lightcurve.py is).  The columns it writes are therefore
modelled from the spec, as documented on each definition below. -/

/-- Python max on two rationals (max returns its first argument on ties). -/
def qmax (a b : ℚ) : ℚ := if a < b then b else a

/-- Modelled from the spec: colorevolGRB (absent from src/) writes, for
each row of the light dataframe, the columns mag_chosenfilter,
mag_chosenfilter_err, resc_fact, resc_fact_err and
time_difference_percentage, with the string sentinel "-" in all of them
exactly when no rescaling-factor sample was generated for the row (spec
section 3, RescalingFactorSample: the matched reference point and the
derived offset exist together or not at all).  A present record is
modelled by this structure; the sentinel case by Option.none below. -/
structure RescData where
  mag_chosenfilter : ℚ
  mag_chosenfilter_err : ℚ
  resc_fact : ℚ
  resc_fact_err : ℚ
  time_difference_percentage : ℚ
deriving Repr, DecidableEq

/-- One row of the light dataframe of _rescaleGRB (rescale.py lines
138-166): the ingested columns plus the colorevolGRB columns (rescdata).
band_appx_occurrences is the occurrence count of the row's band used by
_duplicate_remover (line 28); it is written by colorevolGRB (absent from
src/) and is modelled from the spec (Band occurrence_count, section 3). -/
structure LightRow where
  time_sec : ℚ
  mag : ℚ
  mag_err : ℚ
  band : String
  band_appx : String
  system : String
  telescope : String
  extcorr : String
  source : String
  flag : String
  band_appx_occurrences : ℕ
  rescdata : Option RescData
deriving Repr, DecidableEq

/-- A row after _rescaleGRB filled the two output columns
mag_rescaled_to_<filterforrescaling> and mag_rescaled_err (lines
130-131): the original row plus the two new values. -/
structure RescRow where
  row : LightRow
  mag_rescaled : ℚ
  mag_rescaled_err : ℚ
deriving Repr, DecidableEq

/-- rescale.py lines 20-24, _overlap: 0 when one closed magnitude range
lies strictly above or strictly below the other, otherwise
max(mag1upper, mag2upper) (which the comment at line 24 asserts is a
value > 0). -/
def overlap (mag1lower mag1upper mag2lower mag2upper : ℚ) : ℚ :=
  if mag1upper < mag2lower ∨ mag1lower > mag2upper then 0
  else qmax mag1upper mag2upper

/-- The overlap test in the words of the spec (section 4.4): two closed
intervals overlap iff neither is strictly disjoint from the other. -/
def intervalsOverlap (lo1 hi1 lo2 hi2 : ℚ) : Prop := ¬ (hi1 < lo2 ∨ lo1 > hi2)

/-- rescale.py lines 138-166: the per-row rescaling decision.  When the
colorevolGRB columns hold the sentinel "-" (rescdata = none) the disjunct
resc_fact == "-" of line 153 passes the row through unchanged (the
magoverlapcheck of lines 148-151 is not recomputed then; the Python or is
short-circuit, so the stale value from a previous iteration is never
read).  Otherwise line 153 passes the row through when the band is the
filter chosen for rescaling, the magnitude ranges overlap
(magoverlapcheck != 0) or the band is in the color-evolution list; line
159 rescales (mag + resc_fact, error resc_fact_err) when the time
difference is within 2.5 percent, the overlap check is 0 and the band is
in the no-color-evolution list; the default of lines 164-166 passes
through. -/
def rescaleRow (filterforrescaling : String)
    (nocolorevolutionlist colorevolutionlist : List String) (r : LightRow) : RescRow :=
  match r.rescdata with
  | none => { row := r, mag_rescaled := r.mag, mag_rescaled_err := r.mag_err }
  | some d =>
    let magoverlapcheck := overlap (r.mag - r.mag_err) (r.mag + r.mag_err)
      (d.mag_chosenfilter - d.mag_chosenfilter_err)
      (d.mag_chosenfilter + d.mag_chosenfilter_err)
    if r.band_appx = filterforrescaling ∨ magoverlapcheck ≠ 0
        ∨ r.band_appx ∈ colorevolutionlist then
      { row := r, mag_rescaled := r.mag, mag_rescaled_err := r.mag_err }
    else if d.time_difference_percentage ≤ 1/40 ∧ magoverlapcheck = 0
        ∧ r.band_appx ∈ nocolorevolutionlist then
      { row := r, mag_rescaled := r.mag + d.resc_fact,
        mag_rescaled_err := d.resc_fact_err }
    else
      { row := r, mag_rescaled := r.mag, mag_rescaled_err := r.mag_err }

/-- The per-band classification of the spec (sections 3 and 4.3). -/
inductive BandClass where
  | no_color_evolution : BandClass
  | color_evolution : BandClass
  | insufficient_data : BandClass
deriving Repr, DecidableEq

/-- Modelled from the spec: colorevolGRB (absent from src/) returns
nocolorevolutionlist, the bands classified no_color_evolution
(rescale.py line 39). -/
def nocolorList (bands : List String) (classOf : String → BandClass) : List String :=
  bands.filter (fun b => classOf b == BandClass.no_color_evolution)

/-- Modelled from the spec: colorevolGRB (absent from src/) returns
colorevolutionlist, the bands classified color_evolution
(rescale.py line 40). -/
def colorevolList (bands : List String) (classOf : String → BandClass) : List String :=
  bands.filter (fun b => classOf b == BandClass.color_evolution)

/-- Stable ascending insertion on band_appx_occurrences: an element moves
past strictly smaller keys only, so rows with equal occurrence counts
keep their relative order.  This models the ascending argsort kernel in
the case of a stable sorting kind; the default numpy quicksort kind
guarantees no particular order among equal keys (see sortByOccDesc). -/
def insertByOccAsc (r : RescRow) : List RescRow → List RescRow
  | [] => [r]
  | x :: xs =>
    if x.row.band_appx_occurrences < r.row.band_appx_occurrences
    then x :: insertByOccAsc r xs
    else r :: x :: xs

def sortByOccAsc : List RescRow → List RescRow
  | [] => []
  | r :: rest => insertByOccAsc r (sortByOccAsc rest)

/-- pandas sort_values(band_appx_occurrences, ascending=False) of
_duplicate_remover (line 28).  pandas (nargsort) computes an ascending
argsort with the requested kind and reverses the whole indexer for a
descending sort, so the descending output is the reverse of the
ascending one.  The default quicksort kind is unstable, so the order of
rows with equal occurrence counts is implementation-defined; this model
fixes the ascending kernel to a stable sort (numpy introsort degenerates
to a stable insertion sort on short runs), under which equal keys
surface in reverse input order after the reversal.  No theorem below
relies on this tie order except the C9 counterexample, which exhibits
it; the amended C9 theorem holds for every sort satisfying the
permutation and descending-order contract. -/
def sortByOccDesc (l : List RescRow) : List RescRow := (sortByOccAsc l).reverse

/-- Stable insertion for the ascending sort on time_sec. -/
def insertByTimeAsc (r : RescRow) : List RescRow → List RescRow
  | [] => [r]
  | x :: xs =>
    if x.row.time_sec < r.row.time_sec
    then x :: insertByTimeAsc r xs
    else r :: x :: xs

/-- pandas sort_values(time_sec, ascending=True) of _duplicate_remover
(line 30), modelled as an insertion sort.  This sort runs after
drop_duplicates on time_sec, so its keys are pairwise distinct and every
sorting kind produces the same output; no stability assumption is
involved. -/
def sortByTimeAsc : List RescRow → List RescRow
  | [] => []
  | r :: rest => insertByTimeAsc r (sortByTimeAsc rest)

/-- pandas drop_duplicates(subset=time_sec, keep=first) (line 28): keep
the first row of each time_sec value, preserving order. -/
def dropDupTimeGo (seen : List ℚ) : List RescRow → List RescRow
  | [] => []
  | r :: rest =>
    if r.row.time_sec ∈ seen then dropDupTimeGo seen rest
    else r :: dropDupTimeGo (r.row.time_sec :: seen) rest

/-- rescale.py lines 26-32, _duplicate_remover, with the descending
occurrence sort abstracted: pandas sort_values guarantees only a
permutation of the rows that is descending in band_appx_occurrences
(tie order implementation-defined); then drop duplicate time_sec values
keeping the first, then re-sort by time_sec ascending. -/
def duplicate_remover_with (sortfn : List RescRow → List RescRow)
    (df : List RescRow) : List RescRow :=
  sortByTimeAsc (dropDupTimeGo [] (sortfn df))

/-- rescale.py lines 26-32, _duplicate_remover: the pipeline above
instantiated with the modelled pandas descending sort. -/
def duplicate_remover (df : List RescRow) : List RescRow :=
  duplicate_remover_with sortByOccDesc df

/-- rescale.py lines 130-170 (the plotting code is omitted: it does not
touch the magnitude columns): raise ValueError("No filters to rescale.")
when nocolorevolutionlist is empty (lines 133-134), before any row is
rescaled; otherwise rescale every row (lines 138-166) and optionally
apply _duplicate_remover (lines 168-170). -/
def rescaleGRB_run (remove_duplicate : Bool) (filterforrescaling : String)
    (nocolorevolutionlist colorevolutionlist : List String)
    (light : List LightRow) : Except String (List RescRow) :=
  if nocolorevolutionlist.length = 0 then Except.error "No filters to rescale."
  else
    let rescaled :=
      light.map (rescaleRow filterforrescaling nocolorevolutionlist colorevolutionlist)
    if remove_duplicate then Except.ok (duplicate_remover rescaled)
    else Except.ok rescaled
/-- A concrete reference-band row used by the C8 witness. -/
def refRow : LightRow :=
  { time_sec := 500, mag := 17, mag_err := 1/10, band := "Rc", band_appx := "R",
    system := "AB", telescope := "T", extcorr := "y", source := "S", flag := "no",
    band_appx_occurrences := 9,
    rescdata := some { mag_chosenfilter := 18,
                       mag_chosenfilter_err := 1/10,
                       resc_fact := 1,
                       resc_fact_err := 1/8,
                       time_difference_percentage := 1/100 } }

/-- C8: a row of the reference band (band_appx equal to the filter chosen
for rescaling) passes through unchanged: the first disjunct of line 153
fires, lines 154-155 copy mag and mag_err into the two added columns, and
no other column of the row is written (the row component is returned
untouched). -/
theorem C8_reference_passthrough (f : String) (nc ce : List String) (r : LightRow)
    (h : r.band_appx = f) :
    rescaleRow f nc ce r
      = { row := r, mag_rescaled := r.mag, mag_rescaled_err := r.mag_err } := by
  cases hd : r.rescdata with
  | none => simp [rescaleRow, hd]
  | some d => simp [rescaleRow, hd, h]

/-- Witness for C8 at a concrete input: a reference-band row with a
matched reference point passes through with its original magnitude 17 and
error 1/10, all other columns untouched. -/
theorem C8_witness :
    rescaleRow "R" ["V"] [] refRow
      = { row := refRow, mag_rescaled := refRow.mag, mag_rescaled_err := refRow.mag_err } :=
  C8_reference_passthrough "R" ["V"] [] refRow rfl

/-- A concrete V-band row whose magnitude range [-2, 0] overlaps the range
[-1/2, 0] of its matched reference point, used by the C6 theorem. -/
def overlapRow : LightRow :=
  { time_sec := 1000, mag := -1, mag_err := 1, band := "V", band_appx := "V",
    system := "AB", telescope := "T", extcorr := "y", source := "S", flag := "no",
    band_appx_occurrences := 5,
    rescdata := some { mag_chosenfilter := -1/4,
                       mag_chosenfilter_err := 1/4,
                       resc_fact := 5,
                       resc_fact_err := 1/2,
                       time_difference_percentage := 0 } }

/-- C6 (code bug): the row overlapRow (magnitude -1 with error 1, closed
range [-2, 0]) overlaps its matched reference point (magnitude -1/4 with
error 1/4, closed range [-1/2, 0]) in the closed-interval sense, yet
_overlap (lines 20-24) returns max(0, 0) = 0, contradicting its own
comment that a value > 0 is returned in the case of overlap; line 153
therefore sees magoverlapcheck == 0 and lines 159-161 rescale the row (by
resc_fact = 5, to magnitude 4) instead of passing it through unchanged as
the claim requires for overlapping ranges. -/
theorem C6_overlap_zero_bug :
    intervalsOverlap (-2) 0 (-1/2) 0 ∧
    overlap (-2) 0 (-1/2) 0 = 0 ∧
    (rescaleRow "R" ["V"] [] overlapRow).mag_rescaled = 4 := by
  refine ⟨?_, ?_, ?_⟩
  · rw [intervalsOverlap]
    push_neg
    norm_num
  · rw [overlap, if_neg (by push_neg; norm_num)]
    norm_num [qmax]
  · norm_num [rescaleRow, overlapRow, overlap, qmax]
    rw [if_neg (show ¬ ("V" : String) = "R" by decide)]

/-- C2 (colorevolGRB columns modelled from the spec): for a row of a
non-reference band classified no_color_evolution, whose magnitude range
does not overlap its matched reference point, and whose colorevolGRB
columns hold the band's single inverse-variance weighted-mean offset
off(B) and weighted-mean error offerr(B) (spec section 4.4), with the
generated sample obeying the 2.5 percent threshold (spec section 3),
lines 159-161 give mag_rescaled = mag + off(B) and
mag_rescaled_err = offerr(B): the identical offset and error for every
observation of the band. -/
theorem C2_weighted_mean_shift (bands : List String) (classOf : String → BandClass)
    (off offerr : String → ℚ) (f : String) (r : LightRow) (d : RescData)
    (hd : r.rescdata = some d)
    (hoff : d.resc_fact = off r.band_appx)
    (hofferr : d.resc_fact_err = offerr r.band_appx)
    (htdp : d.time_difference_percentage ≤ 1/40)
    (hclass : classOf r.band_appx = BandClass.no_color_evolution)
    (hband : r.band_appx ∈ bands)
    (hnotref : r.band_appx ≠ f)
    (hnoov : ¬ intervalsOverlap (r.mag - r.mag_err) (r.mag + r.mag_err)
      (d.mag_chosenfilter - d.mag_chosenfilter_err)
      (d.mag_chosenfilter + d.mag_chosenfilter_err)) :
    rescaleRow f (nocolorList bands classOf) (colorevolList bands classOf) r
      = { row := r, mag_rescaled := r.mag + off r.band_appx,
          mag_rescaled_err := offerr r.band_appx } := by
  rw [intervalsOverlap] at hnoov
  have hdisj := not_not.mp hnoov
  have hmoc : overlap (r.mag - r.mag_err) (r.mag + r.mag_err)
      (d.mag_chosenfilter - d.mag_chosenfilter_err)
      (d.mag_chosenfilter + d.mag_chosenfilter_err) = 0 := by
    rw [overlap, if_pos hdisj]
  have htdp2 : ¬ ((40 : ℚ)⁻¹ < d.time_difference_percentage) := by
    rw [one_div] at htdp
    exact not_lt.mpr htdp
  have hnc : r.band_appx ∈ nocolorList bands classOf :=
    List.mem_filter.mpr ⟨hband, by simp [hclass]⟩
  have hce : r.band_appx ∉ colorevolList bands classOf := by
    intro hmem
    have h2 := (List.mem_filter.mp hmem).2
    simp [hclass] at h2
  simp [rescaleRow, hd, hmoc, hnotref, hce, hnc, htdp2, hoff, hofferr]

/-- A concrete V-band row with magnitude 10 and error 1/10 whose matched
reference point (12 with error 1/10) does not overlap it, used by the C2
witness. -/
def noOverlapRow : LightRow :=
  { time_sec := 300, mag := 10, mag_err := 1/10, band := "V", band_appx := "V",
    system := "AB", telescope := "T", extcorr := "y", source := "S", flag := "no",
    band_appx_occurrences := 4,
    rescdata := some { mag_chosenfilter := 12,
                       mag_chosenfilter_err := 1/10,
                       resc_fact := 2,
                       resc_fact_err := 1/4,
                       time_difference_percentage := 1/100 } }

/-- Witness for C2 at a concrete input: with band weighted-mean offset 2
and error 1/4 the row noOverlapRow is rescaled to 10 + 2 with error 1/4. -/
theorem C2_witness :
    rescaleRow "R" (nocolorList ["V"] (fun _ => BandClass.no_color_evolution))
        (colorevolList ["V"] (fun _ => BandClass.no_color_evolution)) noOverlapRow
      = { row := noOverlapRow, mag_rescaled := noOverlapRow.mag + 2,
          mag_rescaled_err := 1/4 } :=
  C2_weighted_mean_shift ["V"] (fun _ => BandClass.no_color_evolution)
    (fun _ => 2) (fun _ => 1/4) "R" noOverlapRow _ rfl rfl rfl (by norm_num) rfl
    (by simp [noOverlapRow]) (by simp [noOverlapRow])
    (by rw [intervalsOverlap]; push_neg; left; norm_num [noOverlapRow])

/-- C7 (nocolorevolutionlist modelled from the spec as the bands
classified no_color_evolution): _rescaleGRB raises
ValueError("No filters to rescale.") exactly when no non-reference band is
classified no_color_evolution (lines 133-134); the test precedes the
rescaling loop, so in the error case no rescaled table is produced, and
this is the only error the function raises. -/
theorem C7_no_rescalable_bands (remove_duplicate : Bool) (f : String) (bands : List String)
    (classOf : String → BandClass) (ce : List String) (light : List LightRow) :
    (rescaleGRB_run remove_duplicate f (nocolorList bands classOf) ce light
        = Except.error "No filters to rescale."
      ↔ ∀ b ∈ bands, classOf b ≠ BandClass.no_color_evolution) ∧
    (∀ msg, rescaleGRB_run remove_duplicate f (nocolorList bands classOf) ce light
        = Except.error msg → msg = "No filters to rescale.") := by
  have hiff : nocolorList bands classOf = []
      ↔ ∀ b ∈ bands, classOf b ≠ BandClass.no_color_evolution := by
    rw [nocolorList, List.filter_eq_nil_iff]
    constructor
    · intro h b hb hc
      exact h b hb (by simp [hc])
    · intro h b hb
      simp [h b hb]
  constructor
  · constructor
    · intro herr
      by_cases h0 : (nocolorList bands classOf).length = 0
      · exact hiff.mp (List.length_eq_zero.mp h0)
      · rw [rescaleGRB_run, if_neg h0] at herr
        cases remove_duplicate <;> simp at herr
    · intro hall
      rw [rescaleGRB_run,
        if_pos (by rw [List.length_eq_zero]; exact hiff.mpr hall)]
  · intro msg hmsg
    by_cases h0 : (nocolorList bands classOf).length = 0
    · rw [rescaleGRB_run, if_pos h0] at hmsg
      exact (Except.error.inj hmsg).symm
    · rw [rescaleGRB_run, if_neg h0] at hmsg
      cases remove_duplicate <;> simp at hmsg

/- ### Supporting lemmas for _duplicate_remover -/

/-- The maximal band occurrence count in a list of rescaled rows. -/
def maxOcc : List RescRow → ℕ
  | [] => 0
  | r :: rest => Nat.max r.row.band_appx_occurrences (maxOcc rest)

theorem head?_filter_eq_find? {α : Type} (p : α → Bool) (l : List α) :
    (l.filter p).head? = l.find? p := by
  induction l with
  | nil => rfl
  | cons a t ih =>
    by_cases h : p a
    · rw [List.filter_cons_of_pos h, List.find?_cons_of_pos _ h]
      rfl
    · rw [List.filter_cons_of_neg h, List.find?_cons_of_neg _ h]
      exact ih

/-- Sortedness invariant for the descending occurrence sort. -/
def occDescSorted (l : List RescRow) : Prop :=
  List.Chain' (fun a b => b.row.band_appx_occurrences ≤ a.row.band_appx_occurrences) l

theorem occDescSorted_all_le (x : RescRow) (xs : List RescRow)
    (hl : occDescSorted (x :: xs)) :
    ∀ y ∈ x :: xs, y.row.band_appx_occurrences ≤ x.row.band_appx_occurrences := by
  haveI : IsTrans RescRow
      (fun a b => b.row.band_appx_occurrences ≤ a.row.band_appx_occurrences) :=
    ⟨fun a b c hab hbc => le_trans hbc hab⟩
  rw [occDescSorted, List.chain'_iff_pairwise] at hl
  intro y hy
  rcases List.mem_cons.mp hy with rfl | hy2
  · exact le_rfl
  · exact (List.pairwise_cons.mp hl).1 y hy2

theorem dropDupTimeGo_filter (t : ℚ) (l : List RescRow) : ∀ seen : List ℚ,
    (t ∈ seen → (dropDupTimeGo seen l).filter (fun r => r.row.time_sec == t) = []) ∧
    (t ∉ seen → (dropDupTimeGo seen l).filter (fun r => r.row.time_sec == t)
        = (l.find? (fun r => r.row.time_sec == t)).toList) := by
  set p2 : RescRow → Bool := fun r => r.row.time_sec == t with hp2
  induction l with
  | nil => intro seen; simp [dropDupTimeGo]
  | cons r rest ih =>
    intro seen
    by_cases hrs : r.row.time_sec ∈ seen
    · rw [dropDupTimeGo, if_pos hrs]
      constructor
      · intro ht
        exact (ih seen).1 ht
      · intro ht
        have hrt : ¬ p2 r = true := by
          rw [hp2]
          simp only [beq_iff_eq]
          intro hc
          exact ht (hc ▸ hrs)
        rw [List.find?_cons_of_neg _ hrt]
        exact (ih seen).2 ht
    · rw [dropDupTimeGo, if_neg hrs]
      constructor
      · intro ht
        have hrt : ¬ p2 r = true := by
          rw [hp2]
          simp only [beq_iff_eq]
          intro hc
          exact hrs (hc ▸ ht)
        rw [List.filter_cons_of_neg hrt]
        exact (ih (r.row.time_sec :: seen)).1 (List.mem_cons_of_mem _ ht)
      · intro ht
        by_cases hrt : r.row.time_sec = t
        · have hpos : p2 r = true := by
            rw [hp2]
            simp [hrt]
          rw [List.filter_cons_of_pos hpos, List.find?_cons_of_pos _ hpos]
          have hrest : (dropDupTimeGo (r.row.time_sec :: seen) rest).filter p2 = [] :=
            (ih (r.row.time_sec :: seen)).1 (by rw [hrt]; exact List.mem_cons_self _ _)
          rw [hrest]
          rfl
        · have hneg : ¬ p2 r = true := by
            rw [hp2]
            simp [hrt]
          rw [List.filter_cons_of_neg hneg, List.find?_cons_of_neg _ hneg]
          refine (ih (r.row.time_sec :: seen)).2 ?_
          intro hc
          rcases List.mem_cons.mp hc with hc2 | hc2
          · exact hrt hc2.symm
          · exact ht hc2

theorem insertByTimeAsc_perm (r : RescRow) (l : List RescRow) :
    List.Perm (insertByTimeAsc r l) (r :: l) := by
  induction l with
  | nil => exact List.Perm.refl _
  | cons x xs ih =>
    rw [insertByTimeAsc]
    by_cases h : x.row.time_sec < r.row.time_sec
    · rw [if_pos h]
      exact List.Perm.trans (List.Perm.cons x ih) (List.Perm.swap r x xs)
    · rw [if_neg h]

theorem sortByTimeAsc_perm (l : List RescRow) : List.Perm (sortByTimeAsc l) l := by
  induction l with
  | nil => exact List.Perm.refl _
  | cons r rest ih =>
    rw [sortByTimeAsc]
    exact List.Perm.trans (insertByTimeAsc_perm r _) (List.Perm.cons r ih)

/-- Ascending sortedness on time_sec. -/
def timeAscSorted (l : List RescRow) : Prop :=
  List.Chain' (fun a b => a.row.time_sec ≤ b.row.time_sec) l

theorem insertByTimeAsc_sorted (r : RescRow) (l : List RescRow) (hl : timeAscSorted l) :
    timeAscSorted (insertByTimeAsc r l) := by
  induction l with
  | nil => simp [insertByTimeAsc, timeAscSorted]
  | cons x xs ih =>
    rw [timeAscSorted, List.chain'_cons'] at hl
    rw [insertByTimeAsc]
    by_cases h : x.row.time_sec < r.row.time_sec
    · rw [if_pos h]
      rw [timeAscSorted, List.chain'_cons']
      refine ⟨?_, ih hl.2⟩
      intro y hy
      cases xs with
      | nil =>
        simp [insertByTimeAsc] at hy
        rw [← hy]
        exact le_of_lt h
      | cons b bs =>
        rw [insertByTimeAsc] at hy
        by_cases h2 : b.row.time_sec < r.row.time_sec
        · rw [if_pos h2] at hy
          simp at hy
          rw [← hy]
          exact hl.1 b (by rfl)
        · rw [if_neg h2] at hy
          simp at hy
          rw [← hy]
          exact le_of_lt h
    · rw [if_neg h]
      rw [timeAscSorted, List.chain'_cons']
      refine ⟨?_, List.chain'_cons'.mpr hl⟩
      intro y hy
      simp at hy
      rw [← hy]
      exact le_of_not_lt h

theorem sortByTimeAsc_sorted (l : List RescRow) : timeAscSorted (sortByTimeAsc l) := by
  induction l with
  | nil => simp [sortByTimeAsc, timeAscSorted]
  | cons r rest ih =>
    rw [sortByTimeAsc]
    exact insertByTimeAsc_sorted r _ ih

theorem insertByOccAsc_perm (r : RescRow) (l : List RescRow) :
    List.Perm (insertByOccAsc r l) (r :: l) := by
  induction l with
  | nil => exact List.Perm.refl _
  | cons x xs ih =>
    rw [insertByOccAsc]
    by_cases h : x.row.band_appx_occurrences < r.row.band_appx_occurrences
    · rw [if_pos h]
      exact List.Perm.trans (List.Perm.cons x ih) (List.Perm.swap r x xs)
    · rw [if_neg h]

theorem sortByOccAsc_perm (l : List RescRow) : List.Perm (sortByOccAsc l) l := by
  induction l with
  | nil => exact List.Perm.refl _
  | cons r rest ih =>
    rw [sortByOccAsc]
    exact List.Perm.trans (insertByOccAsc_perm r _) (List.Perm.cons r ih)

theorem sortByOccDesc_perm (l : List RescRow) : List.Perm (sortByOccDesc l) l := by
  rw [sortByOccDesc]
  exact List.Perm.trans (List.reverse_perm _) (sortByOccAsc_perm l)

/-- Ascending sortedness on the occurrence count. -/
def occAscSorted (l : List RescRow) : Prop :=
  List.Chain' (fun a b => a.row.band_appx_occurrences ≤ b.row.band_appx_occurrences) l

theorem insertByOccAsc_sorted (r : RescRow) (l : List RescRow) (hl : occAscSorted l) :
    occAscSorted (insertByOccAsc r l) := by
  induction l with
  | nil => simp [insertByOccAsc, occAscSorted]
  | cons x xs ih =>
    rw [occAscSorted, List.chain'_cons'] at hl
    rw [insertByOccAsc]
    by_cases h : x.row.band_appx_occurrences < r.row.band_appx_occurrences
    · rw [if_pos h]
      rw [occAscSorted, List.chain'_cons']
      refine ⟨?_, ih hl.2⟩
      intro y hy
      cases xs with
      | nil =>
        simp [insertByOccAsc] at hy
        rw [← hy]
        exact le_of_lt h
      | cons b bs =>
        rw [insertByOccAsc] at hy
        by_cases h2 : b.row.band_appx_occurrences < r.row.band_appx_occurrences
        · rw [if_pos h2] at hy
          simp at hy
          rw [← hy]
          exact hl.1 b (by rfl)
        · rw [if_neg h2] at hy
          simp at hy
          rw [← hy]
          exact le_of_lt h
    · rw [if_neg h]
      rw [occAscSorted, List.chain'_cons']
      refine ⟨?_, List.chain'_cons'.mpr hl⟩
      intro y hy
      simp at hy
      rw [← hy]
      exact le_of_not_lt h

theorem sortByOccAsc_sorted (l : List RescRow) : occAscSorted (sortByOccAsc l) := by
  induction l with
  | nil => simp [sortByOccAsc, occAscSorted]
  | cons r rest ih =>
    rw [sortByOccAsc]
    exact insertByOccAsc_sorted r _ ih

theorem sortByOccDesc_sorted (l : List RescRow) : occDescSorted (sortByOccDesc l) := by
  rw [sortByOccDesc, occDescSorted, List.chain'_reverse]
  exact sortByOccAsc_sorted l

theorem occDescSorted_filter (p : RescRow → Bool) (l : List RescRow)
    (hl : occDescSorted l) : occDescSorted (l.filter p) := by
  haveI : IsTrans RescRow
      (fun a b => b.row.band_appx_occurrences ≤ a.row.band_appx_occurrences) :=
    ⟨fun a b c hab hbc => le_trans hbc hab⟩
  rw [occDescSorted, List.chain'_iff_pairwise] at hl ⊢
  exact List.Pairwise.sublist (List.filter_sublist l) hl

theorem le_maxOcc (g : List RescRow) :
    ∀ y ∈ g, y.row.band_appx_occurrences ≤ maxOcc g := by
  induction g with
  | nil => intro y hy; cases hy
  | cons a rest ih =>
    intro y hy
    rcases List.mem_cons.mp hy with rfl | hy2
    · exact Nat.le_max_left _ _
    · exact le_trans (ih y hy2) (Nat.le_max_right _ _)

theorem maxOcc_le (g : List RescRow) (m : ℕ)
    (h : ∀ y ∈ g, y.row.band_appx_occurrences ≤ m) : maxOcc g ≤ m := by
  induction g with
  | nil => exact Nat.zero_le m
  | cons a rest ih =>
    refine Nat.max_le.mpr ⟨h a (List.mem_cons_self _ _), ih ?_⟩
    intro y hy
    exact h y (List.mem_cons_of_mem _ hy)

/-- A rescaled row at time 100 from band B with occurrence count 5, the
first-encountered of two tied rows, used by the C9 counterexample. -/
def tieRowA : RescRow :=
  { row := { time_sec := 100, mag := 15, mag_err := 1, band := "B", band_appx := "B",
             system := "AB", telescope := "T", extcorr := "y", source := "S",
             flag := "no", band_appx_occurrences := 5, rescdata := none },
    mag_rescaled := 15, mag_rescaled_err := 1 }

/-- A rescaled row at the same time 100 from band V, also with occurrence
count 5, the second-encountered of the tied pair. -/
def tieRowB : RescRow :=
  { row := { time_sec := 100, mag := 14, mag_err := 1, band := "V", band_appx := "V",
             system := "AB", telescope := "T", extcorr := "y", source := "S",
             flag := "no", band_appx_occurrences := 5, rescdata := none },
    mag_rescaled := 14, mag_rescaled_err := 1 }

/-- C9 counterexample: tieRowA and tieRowB share time_sec 100 and are
tied at the maximal occurrence count 5.  pandas obtains the descending
sort by reversing an ascending argsort (nargsort), so with a stable
ascending kernel the tied rows surface in reverse input order, and
drop_duplicates keep=first keeps the SECOND row in input order -- not
the first-encountered one, as the claim states; with the default
unstable quicksort kind the tie order is arbitrary, so input order is
not guaranteed either way. -/
theorem C9_counterexample :
    tieRowA.row.band_appx_occurrences = tieRowB.row.band_appx_occurrences ∧
    tieRowA.row.time_sec = tieRowB.row.time_sec ∧
    duplicate_remover [tieRowA, tieRowB] = [tieRowB] ∧
    tieRowB ≠ tieRowA := by
  refine ⟨rfl, rfl, ?_, by simp [tieRowA, tieRowB]⟩
  norm_num [duplicate_remover, duplicate_remover_with, sortByOccDesc, sortByOccAsc,
    insertByOccAsc, dropDupTimeGo, sortByTimeAsc, insertByTimeAsc, tieRowA, tieRowB]

/-- C9 (amended): when duplicate removal is requested, _rescaleGRB
applies _duplicate_remover (lines 168-170; lines 26-32).  For every sort
function satisfying the contract pandas guarantees for
sort_values(band_appx_occurrences, ascending=False) -- the output is a
permutation of the rows, descending in the occurrence count; the order
among tied counts is implementation-defined -- and for every time_sec
value present among the rescaled rows, exactly one row survives: a row
of that time group whose band occurrence count is maximal in the group
(which of several tied maximal rows survives depends on the
implementation-defined tie order); all other rows of that time_sec are
discarded, and the result is sorted by time_sec ascending. -/
theorem C9_duplicate_removal_amended (sortfn : List RescRow → List RescRow)
    (hperm : ∀ l, List.Perm (sortfn l) l)
    (hsort : ∀ l, occDescSorted (sortfn l))
    (rows : List RescRow) (t : ℚ)
    (hne : rows.filter (fun r => r.row.time_sec == t) ≠ []) :
    (∃ rkept,
      rkept ∈ rows.filter (fun r => r.row.time_sec == t) ∧
      rkept.row.band_appx_occurrences
        = maxOcc (rows.filter (fun r2 => r2.row.time_sec == t)) ∧
      (duplicate_remover_with sortfn rows).filter (fun r => r.row.time_sec == t)
        = [rkept]) ∧
    timeAscSorted (duplicate_remover_with sortfn rows) := by
  set p2 : RescRow → Bool := fun r => r.row.time_sec == t with hp2
  have hpf : List.Perm ((sortfn rows).filter p2) (rows.filter p2) :=
    List.Perm.filter p2 (hperm rows)
  have hfne : (sortfn rows).filter p2 ≠ [] := by
    intro hc
    rw [hc] at hpf
    exact hne (List.Perm.eq_nil hpf.symm)
  obtain ⟨h0, tl, hcase⟩ : ∃ h0 tl, (sortfn rows).filter p2 = h0 :: tl := by
    cases hcase : (sortfn rows).filter p2 with
    | nil => exact absurd hcase hfne
    | cons a l => exact ⟨a, l, rfl⟩
  have hh0mem : h0 ∈ (sortfn rows).filter p2 := by
    rw [hcase]
    exact List.mem_cons_self _ _
  have hgrp : h0 ∈ rows.filter p2 := hpf.mem_iff.mp hh0mem
  have hsortf : occDescSorted ((sortfn rows).filter p2) :=
    occDescSorted_filter p2 _ (hsort rows)
  have hmax0 : ∀ y ∈ (sortfn rows).filter p2,
      y.row.band_appx_occurrences ≤ h0.row.band_appx_occurrences := by
    rw [hcase] at hsortf ⊢
    exact occDescSorted_all_le h0 tl hsortf
  have hmaxg : ∀ y ∈ rows.filter p2,
      y.row.band_appx_occurrences ≤ h0.row.band_appx_occurrences :=
    fun y hy => hmax0 y (hpf.mem_iff.mpr hy)
  have hocc : h0.row.band_appx_occurrences = maxOcc (rows.filter p2) :=
    le_antisymm (le_maxOcc _ h0 hgrp) (maxOcc_le _ _ hmaxg)
  have hfind : (sortfn rows).find? p2 = some h0 := by
    rw [← head?_filter_eq_find?, hcase]
    rfl
  have hdrop := (dropDupTimeGo_filter t (sortfn rows) []).2 (List.not_mem_nil t)
  refine ⟨⟨h0, hgrp, hocc, ?_⟩, ?_⟩
  · have hperm2 := List.Perm.filter p2
      (sortByTimeAsc_perm (dropDupTimeGo [] (sortfn rows)))
    rw [duplicate_remover_with]
    rw [hdrop, hfind] at hperm2
    exact List.perm_singleton.mp hperm2
  · rw [duplicate_remover_with]
    exact sortByTimeAsc_sorted _

/-- A rescaled row at time 100 from a band with 2 occurrences, used by the
C9 witness. -/
def dupRowA : RescRow :=
  { row := { time_sec := 100, mag := 15, mag_err := 1, band := "B", band_appx := "B",
             system := "AB", telescope := "T", extcorr := "y", source := "S",
             flag := "no", band_appx_occurrences := 2, rescdata := none },
    mag_rescaled := 15, mag_rescaled_err := 1 }

/-- A rescaled row at the same time 100 from a band with 7 occurrences,
used by the C9 witness. -/
def dupRowB : RescRow :=
  { row := { time_sec := 100, mag := 14, mag_err := 1, band := "R", band_appx := "R",
             system := "AB", telescope := "T", extcorr := "y", source := "S",
             flag := "no", band_appx_occurrences := 7, rescdata := none },
    mag_rescaled := 14, mag_rescaled_err := 1 }

/-- Witness for C9 (amended) at a concrete input: the modelled pandas
descending sort satisfies the contract, two rescaled rows share time
100, the surviving row belongs to that time group with the maximal
occurrence count 7, the other row is dropped, and the output is
time-sorted. -/
theorem C9_amended_witness :
    (∃ rkept,
      rkept ∈ [dupRowA, dupRowB].filter (fun r => r.row.time_sec == (100 : ℚ)) ∧
      rkept.row.band_appx_occurrences
        = maxOcc ([dupRowA, dupRowB].filter (fun r2 => r2.row.time_sec == (100 : ℚ))) ∧
      (duplicate_remover [dupRowA, dupRowB]).filter (fun r => r.row.time_sec == (100 : ℚ))
        = [rkept]) ∧
    timeAscSorted (duplicate_remover [dupRowA, dupRowB]) :=
  C9_duplicate_removal_amended sortByOccDesc sortByOccDesc_perm sortByOccDesc_sorted
    [dupRowA, dupRowB] 100
    (by
      norm_num [dupRowA, dupRowB, List.filter_cons]
      exact List.cons_ne_nil _ _)

/- ### rescaleGRB of grblc/evolution/lightcurve.py (class lightcurve)

Lines 436-441 alias light_y = self.ydata and light_yerr = self.yerr, so
the assignments light_y[pp] = light_y[pp] + mean and
light_yerr[pp] = sqrt(light_yerr[pp]^2 + mean_err^2) of lines 717-718
would write through to the stored arrays.  The run is modelled by
explicit state passing on those arrays (LCState below); the claim
concerns whether a call ever reaches the assignments. -/

structure LCState where
  ydata : List ℚ
  yerr : List ℚ
deriving Repr, DecidableEq

/-- One iteration of the per-band statistics loop (lines 558-615): both
branches (lines 570-586 for three or more samples, lines 588-597
otherwise) first evaluate wmom(y) -- lines 579-580 resp. 589-590 -- with
a single positional argument, modelled by wmomCall; the comment that the
rest of the iteration computes is bandComment.  The lmfit slope fit of
lines 571-577 is an external computation and enters through the fitted
slope parameters. -/
def processBand (samples : List SF) (fitslope fitslope_err : ℚ) : Except String String :=
  match wmomCall [samples.map SF.offset] with
  | Except.error e => Except.error e
  | Except.ok _wm => Except.ok (bandComment samples.length fitslope fitslope_err)

/-- The loop of line 558 over the bands of rescale_slopes_df.index (the
bands having at least one retained sample). -/
def processBands (fits : String → ℚ × ℚ) :
    List (String × List SF) → Except String (List String)
  | [] => Except.ok []
  | b :: rest =>
    match processBand b.2 (fits b.1).1 (fits b.1).2 with
    | Except.error e => Except.error e
    | Except.ok c =>
      match processBands fits rest with
      | Except.error e => Except.error e
      | Except.ok cs => Except.ok (c :: cs)

/-- The columns of rescale_df (lightcurve.py lines 515-516; plot_color is
added at line 522 and dropped again at line 639).  No column named mean is
ever added to this dataframe: the assignments of lines 579-580 target
rescale_slopes_df through chained indexing, not rescale_df. -/
def rescale_df_columns : List String :=
  ["band", "occur_band", "time_sec", "rescale_fact", "rescale_fact_err",
   "rescale_fact_weights"]

/-- Reading a dataframe column by name: KeyError when absent. -/
def dfColumn (cols : List String) (name : String) (values : List ℚ) :
    Except String (List ℚ) :=
  if name ∈ cols then Except.ok values else Except.error ("KeyError: " ++ name)

/-- rescaleGRB of evolution/lightcurve.py, modelled on the stored arrays:
the assert of line 442 (more than one data point), the per-band
statistics loop (lines 558-615), then the rescaling loop of lines
701-718, whose first iteration evaluates
zip(rescale_df[mean], rescale_df[mean_err]) at line 707 and raises
KeyError since rescale_df has no such columns.  The loop body of lines
708-718 (the in-place shift of light_y / light_yerr) is unreachable, so
the final Except.ok st (state returned unchanged) is never produced. -/
def rescaleGRB_lightcurve (bands : List (String × List SF)) (fits : String → ℚ × ℚ)
    (st : LCState) : Except String LCState :=
  if st.ydata.length ≤ 1 then Except.error "AssertionError: Has only one data point."
  else
    match processBands fits bands with
    | Except.error e => Except.error e
    | Except.ok _comments =>
      match dfColumn rescale_df_columns "mean" [] with
      | Except.error e => Except.error e
      | Except.ok _means => Except.ok st

/-- C10 (code bug): rescaleGRB aliases light_y / light_yerr to
self.ydata / self.yerr (lines 436-441) and its rescaling loop (lines
701-718) would overwrite them in place with shifted magnitudes and
propagated errors, but no call ever reaches that loop: wmom(y) at lines
579-580 / 589-590 omits the required second argument yerr and raises
TypeError at the first band processed, and with no band at all line 707
still raises KeyError because rescale_df has no column mean.  The
function therefore never returns normally, self.ydata and self.yerr keep
their ingested values, and a second call cannot start from shifted
magnitudes. -/
theorem C10_rescale_never_mutates :
    (∀ (bands : List (String × List SF)) (fits : String → ℚ × ℚ) (st out : LCState),
      rescaleGRB_lightcurve bands fits st ≠ Except.ok out) ∧
    rescaleGRB_lightcurve [("V", [⟨99, 1, 1, 2⟩])] (fun _ => (0, 0))
        { ydata := [5, 4], yerr := [1, 1] }
      = Except.error "TypeError: wmom() missing 1 required positional argument: yerr" := by
  constructor
  · intro bands fits st out hc
    rw [rescaleGRB_lightcurve] at hc
    by_cases h1 : st.ydata.length ≤ 1
    · rw [if_pos h1] at hc
      cases hc
    · rw [if_neg h1] at hc
      cases bands with
      | nil =>
        rw [show dfColumn rescale_df_columns "mean" []
            = Except.error ("KeyError: " ++ "mean") from by
          rw [dfColumn, if_neg (by decide)]] at hc
        cases hc
      | cons b bs =>
        rw [show processBands fits (b :: bs)
            = Except.error "TypeError: wmom() missing 1 required positional argument: yerr"
            from rfl] at hc
        cases hc
  · rfl
